import Mathlib

/-!
Verification of the Comment Moderation & Retrieval Engine of shinnlok/backend.

The routing surface and boundary validation live in `src/index.js` (Joi
schemas for `PUT /comments` and `GET /comments/{action}/{target*}`, the
server-level `failAction`). The handler bodies under `src/handlers/` are
not part of the snapshot; those operations are modelled from the spec
(§3–§4.6) and each such definition says so in its doc comment.
-/

namespace CommentEngine

/-- Comment lifecycle status (§3): `Deleted` is not stored, deletion removes
the record, so only two statuses exist. -/
inductive Status
  | pending
  | accepted
deriving DecidableEq, Repr

/-- JSON-like values, as validated by the Joi schemas in `src/index.js`. -/
inductive JsonValue
  | jstr (s : String)
  | jnum (n : Int)
  | jbool (b : Bool)
  | jobj (fields : List (String × JsonValue))
  | jarr (elems : List JsonValue)
  | jnull

/-- The Comment record (§3 data model). `additional` is opaque structured
metadata stored verbatim. -/
structure Comment where
  id : Nat
  target : String
  author : Option String
  message : String
  additional : Option JsonValue
  status : Status
  createdAt : Nat
  acceptToken : Option String
  tokenExpiry : Nat

/-- The Comment Store state: the table of comment records. -/
abbrev Store := List Comment

/-- Result of the atomic accept transition (§4.1 `tryAccept`). -/
inductive AcceptResult
  | resAccepted
  | resNotFound
  | resTokenMismatch
  | resTokenExpired
  | resAlreadyAccepted
deriving DecidableEq, Repr

/-- The conditional update applied by the accept transaction: flip the row
to `accepted` and clear its token only when the whole predicate
(matching id, still pending, matching token, unexpired) holds. -/
def acceptFlip (i : Nat) (tok : String) (now : Nat) (d : Comment) : Comment :=
  if d.id = i ∧ d.status = .pending ∧ d.acceptToken = some tok ∧ now < d.tokenExpiry
  then { d with status := .accepted, acceptToken := none }
  else d

/-- Modelled from the spec: the body of `src/handlers/comments/acceptComment`
is absent from the snapshot. §4.1: `tryAccept(id, suppliedToken, now)` is a
single atomic read-modify-write re-checking `status = Pending`, token match
and `now < tokenExpiry` before flipping the status and clearing the token. -/
def tryAccept (s : Store) (i : Nat) (tok : String) (now : Nat) :
    AcceptResult × Store :=
  match s.find? (fun c => c.id == i) with
  | none => (.resNotFound, s)
  | some c =>
    if c.status = .accepted then (.resAlreadyAccepted, s)
    else if c.acceptToken ≠ some tok then (.resTokenMismatch, s)
    else if now < c.tokenExpiry then (.resAccepted, s.map (acceptFlip i tok now))
    else (.resTokenExpired, s)

/-- A pending row whose token expiry lies strictly before `now` (§4.1 sweep
predicate `status = Pending AND tokenExpiry < now`). -/
def expiredPending (now : Nat) (c : Comment) : Bool :=
  c.status == .pending && c.tokenExpiry < now

/-- Modelled from the spec: the body of `src/handlers/cron/garbageCollect`
is absent from the snapshot. §4.1 `sweepExpiredPending(now)`: atomically
delete all rows with `status = Pending AND tokenExpiry < now`, returning
the count of deleted records. -/
def sweepExpiredPending (s : Store) (now : Nat) : Nat × Store :=
  ((s.filter (expiredPending now)).length,
   s.filter (fun c => !expiredPending now c))

/-- Chronological order on comments: by `createdAt`, ties broken by `id`
(§3 invariants). -/
def commentLe (a b : Comment) : Prop :=
  a.createdAt < b.createdAt ∨ (a.createdAt = b.createdAt ∧ a.id ≤ b.id)

instance : DecidableRel commentLe := fun a b => by
  unfold commentLe; infer_instance

instance : IsTotal Comment commentLe :=
  ⟨fun a b => by unfold commentLe; omega⟩

instance : IsTrans Comment commentLe :=
  ⟨fun a b c hab hbc => by unfold commentLe at *; omega⟩

/-- Modelled from the spec: the body of `src/handlers/comments/getComments`
is absent from the snapshot. §4.1 `listAccepted(target)`: the accepted-only
comments of `target`, chronological, oldest first, side-effect free. -/
def listAccepted (s : Store) (target : String) : List Comment :=
  List.insertionSort commentLe
    (s.filter (fun c => c.status == .accepted && c.target == target))

/-- Modelled from the spec: §4.5 `feed` renders the same accepted set
ordered newest first; this is the comment sequence underlying the feed. -/
def feedComments (s : Store) (target : String) : List Comment :=
  (listAccepted s target).reverse

/-- One syndication entry (§4.5): title/summary from `message`, publish
date from `createdAt`. -/
structure FeedEntry where
  title : String
  published : Nat
deriving DecidableEq, Repr

/-- Modelled from the spec: §4.5 feed rendering, one entry per comment. -/
def renderFeed (s : Store) (target : String) : List FeedEntry :=
  (feedComments s target).map (fun c => ⟨c.message, c.createdAt⟩)

/-- A submission payload after boundary validation (§4.3 input). -/
structure SubmitPayload where
  author : Option String
  message : String
  target : String
  additional : Option JsonValue

/-- A fresh id, never reused (§3: stable unique identifier assigned at
creation). -/
def freshId (s : Store) : Nat := (s.map Comment.id).foldr max 0 + 1

/-- Modelled from the spec: §4.1 `insertPending` — insert a new `Pending`
row carrying the token and its expiry (creation time + retention window). -/
def insertPending (s : Store) (p : SubmitPayload) (token : String)
    (now window : Nat) : Store × Nat :=
  let i := freshId s
  (s ++ [{ id := i, target := p.target, author := p.author,
           message := p.message, additional := p.additional,
           status := .pending, createdAt := now,
           acceptToken := some token, tokenExpiry := now + window }], i)

/-- The outbound notification (§4.3): the accept link carries id + token. -/
structure Notification where
  id : Nat
  token : String

/-- An HTTP-style response body visible to the submitting client. -/
structure SubmitResponse where
  statusCode : Nat
  body : String
deriving DecidableEq, Repr

/-- Modelled from the spec: the body of `src/handlers/comments/putComment`
is absent from the snapshot. §4.3: generate a token, insert the pending
comment, dispatch a notification carrying id + token; the response must
NOT echo the token. -/
def putComment (s : Store) (p : SubmitPayload) (token : String)
    (now window : Nat) : Store × SubmitResponse × Notification :=
  let r := insertPending s p token now window
  (r.1, { statusCode := 200, body := "Comment recorded." },
   { id := r.2, token := token })

/-- An HTTP-style response of the acceptance handler. -/
structure AcceptResponse where
  statusCode : Nat
  body : String
deriving DecidableEq, Repr

/-- Modelled from the spec: §4.4 response mapping of the Acceptance
Handler; `AlreadyAccepted` maps to the same success response as a
first-time accept. -/
def acceptResponse : AcceptResult → AcceptResponse
  | .resAccepted => ⟨200, "Comment accepted."⟩
  | .resAlreadyAccepted => ⟨200, "Comment accepted."⟩
  | .resNotFound => ⟨404, "Comment not found."⟩
  | .resTokenMismatch => ⟨401, "Invalid accept token."⟩
  | .resTokenExpired => ⟨410, "Accept token expired."⟩

/-- Modelled from the spec: the `GET /comments/accept/{id}/{token}` handler
delegates to `tryAccept` and maps its result to a response (§4.4). -/
def acceptComment (s : Store) (i : Nat) (tok : String) (now : Nat) :
    Store × AcceptResponse :=
  let r := tryAccept s i tok now
  (r.2, acceptResponse r.1)

/-- One engine operation (§2): submit, accept, retrieve (both variants),
sweep. -/
inductive Op
  | opSubmit (p : SubmitPayload) (token : String) (now window : Nat)
  | opAccept (i : Nat) (token : String) (now : Nat)
  | opSweep (now : Nat)
  | opGet (target : String)
  | opFeed (target : String)

/-- The store state after one operation; retrieval is read-only (§4.5). -/
def applyOp (s : Store) : Op → Store
  | .opSubmit p t n w => (putComment s p t n w).1
  | .opAccept i t n => (tryAccept s i t n).2
  | .opSweep n => (sweepExpiredPending s n).2
  | .opGet _ => s
  | .opFeed _ => s

/-! ### Boundary validation, from `src/index.js` -/

/-- Look up a field of a JSON object payload. -/
def lookupField (p : List (String × JsonValue)) (k : String) :
    Option JsonValue :=
  (p.find? (fun kv => kv.1 == k)).map (fun kv => kv.2)

/-- `Joi.string().required()`: present, a string, and non-empty (Joi
strings reject `''` unless `.allow('')`). -/
def requiredNonEmptyString : Option JsonValue → Bool
  | some (.jstr s) => !(s == "")
  | _ => false

/-- `Joi.string().allow('')` (optional): absent, or a string, possibly
empty. -/
def optionalStringAllowEmpty : Option JsonValue → Bool
  | none => true
  | some (.jstr _) => true
  | _ => false

/-- `Joi.object()` (optional): absent, or a structured object. -/
def optionalObject : Option JsonValue → Bool
  | none => true
  | some (.jobj _) => true
  | _ => false

/-- The keys declared in the `PUT /comments` payload schema
(`src/index.js` lines 60-65); Joi objects reject unknown keys. -/
def putCommentKeys : List String := ["author", "message", "target", "additional"]

/-- The `validate.payload` Joi schema of the `PUT /comments` route
(`src/index.js` lines 59-66). -/
def putCommentPayloadValid (p : List (String × JsonValue)) : Bool :=
  requiredNonEmptyString (lookupField p "message") &&
  requiredNonEmptyString (lookupField p "target") &&
  optionalStringAllowEmpty (lookupField p "author") &&
  optionalObject (lookupField p "additional") &&
  p.all (fun kv => putCommentKeys.contains kv.1)

/-- Extract the validated submission payload from a JSON object, `none`
when validation fails. -/
def toSubmitPayload (p : List (String × JsonValue)) : Option SubmitPayload :=
  if putCommentPayloadValid p then
    match lookupField p "message", lookupField p "target" with
    | some (.jstr m), some (.jstr t) =>
      some { author := match lookupField p "author" with
                       | some (.jstr a) => some a
                       | _ => none,
             message := m, target := t,
             additional := lookupField p "additional" }
    | _, _ => none
  else none

/-- The response produced when boundary validation fails: either the
generic 400 of the production branch, or the raw validation error thrown
in any other environment (`src/index.js` lines 18-26). -/
inductive FailOutcome
  | genericBadRequest (statusCode : Nat) (message : String)
  | rawError (errDetails : String)
deriving DecidableEq, Repr

/-- The server-level `routes.validate.failAction` of `src/index.js`
(lines 18-26): in production reply 400 with the fixed generic message,
otherwise rethrow the raw validation error. -/
def serverFailAction (nodeEnv : String) (errDetails : String) : FailOutcome :=
  if nodeEnv == "production"
  then .genericBadRequest 400 "Invalid request payload input"
  else .rawError errDetails

/-- Outcome of a `PUT /comments` request at the boundary. -/
inductive PutOutcome
  | handled (s2 : Store) (resp : SubmitResponse)
  | rejected (f : FailOutcome)

/-- The `PUT /comments` route: Joi validation runs first; only a valid
payload reaches the handler (`src/index.js` lines 55-69). -/
def putCommentsRoute (nodeEnv : String) (s : Store)
    (p : List (String × JsonValue)) (token : String) (now window : Nat) :
    PutOutcome :=
  match toSubmitPayload p with
  | some sp =>
    let r := putComment s sp token now window
    .handled r.1 r.2.1
  | none => .rejected (serverFailAction nodeEnv "ValidationError")

/-- The `validate.params` Joi schema of the `GET /comments/{action}/{target*}`
route (`src/index.js` lines 79-86): `action` must be exactly `get` or
`feed`, `target` is a required (hence non-empty) string. -/
def getParamsValid (action target : String) : Bool :=
  (action == "get" || action == "feed") && !(target == "")

/-- Outcome of a `GET /comments/{action}/{target*}` request. -/
inductive GetOutcome
  | listing (cs : List Comment)
  | feed (entries : List FeedEntry)
  | rejected (f : FailOutcome)

/-- The retrieval route: params validation runs first; the handler (which
serves the listing or the feed) is only invoked on valid params
(`src/index.js` lines 75-87, handler modelled from spec §4.5). -/
def getCommentsRoute (nodeEnv : String) (s : Store)
    (action target : String) : GetOutcome :=
  if getParamsValid action target then
    if action == "get" then .listing (listAccepted s target)
    else .feed (renderFeed s target)
  else .rejected (serverFailAction nodeEnv "ValidationError")

/-- Status code carried by a validation-failure response: the production
branch builds a `Boom.badRequest` (400); the other branch rethrows the
validation error hapi hands to `failAction`, itself a 400 bad-request. -/
def FailOutcome.statusCode : FailOutcome → Nat
  | .genericBadRequest c _ => c
  | .rawError _ => 400

/-! ### Concrete scenario data (§8) -/

/-- First demo submission payload (§8 concrete scenario). -/
def demoPayloadA : SubmitPayload :=
  { author := some "", message := "Great post!", target := "/blog/post-1",
    additional := none }

/-- Second demo submission payload on the same target. -/
def demoPayloadB : SubmitPayload :=
  { author := some "bob", message := "Me too!", target := "/blog/post-1",
    additional := none }

/-- Store after submitting A (time 1) then B (time 2) with a 24-tick
retention window, then accepting both at time 3. -/
def demoStore : Store :=
  (tryAccept
    (tryAccept
      (putComment (putComment [] demoPayloadA "tokA" 1 24).1
        demoPayloadB "tokB" 2 24).1
      1 "tokA" 3).2
    2 "tokB" 3).2

/-- Comment A once accepted. -/
def demoAcceptedA : Comment :=
  { id := 1, target := "/blog/post-1", author := some "",
    message := "Great post!", additional := none, status := .accepted,
    createdAt := 1, acceptToken := none, tokenExpiry := 25 }

/-- Comment B once accepted. -/
def demoAcceptedB : Comment :=
  { id := 2, target := "/blog/post-1", author := some "bob",
    message := "Me too!", additional := none, status := .accepted,
    createdAt := 2, acceptToken := none, tokenExpiry := 26 }

/-- A concrete pending comment, used in witnesses. -/
def demoPending : Comment :=
  { id := 7, target := "/t", author := none, message := "hi",
    additional := none, status := .pending, createdAt := 5,
    acceptToken := some "tok", tokenExpiry := 29 }

/-! ### Helper lemmas -/

/-- The accept transaction's conditional update never changes an id. -/
theorem acceptFlip_id (i : Nat) (tok : String) (now : Nat) (d : Comment) :
    (acceptFlip i tok now d).id = d.id := by
  unfold acceptFlip; split <;> rfl

/-- The accept transaction's conditional update fixes any non-pending row. -/
theorem acceptFlip_of_not_pending (i : Nat) (tok : String) (now : Nat)
    (d : Comment) (h : d.status ≠ .pending) : acceptFlip i tok now d = d := by
  unfold acceptFlip
  rw [if_neg]
  rintro ⟨-, h2, -, -⟩
  exact h h2

/-- Looking up an id commutes with the accept transaction's update map. -/
theorem find?_map_acceptFlip (s : Store) (i j : Nat) (tok : String)
    (now : Nat) :
    (s.map (acceptFlip i tok now)).find? (fun c => c.id == j) =
      (s.find? (fun c => c.id == j)).map (acceptFlip i tok now) := by
  have hp : ((fun c : Comment => c.id == j) ∘ acceptFlip i tok now) =
      (fun c : Comment => c.id == j) := by
    funext d
    simp [Function.comp, acceptFlip_id]
  rw [List.find?_map, hp]

/-- The accept transaction either leaves the store untouched or applies
the conditional update row by row. -/
theorem tryAccept_store_cases (s : Store) (i : Nat) (tok : String)
    (now : Nat) :
    (tryAccept s i tok now).2 = s ∨
      (tryAccept s i tok now).2 = s.map (acceptFlip i tok now) := by
  unfold tryAccept
  cases hf : s.find? (fun c => c.id == i) with
  | none => exact Or.inl rfl
  | some d =>
    dsimp only
    split_ifs <;> simp

/-- A status other than `accepted` is `pending`. -/
theorem status_eq_pending_of_ne_accepted {d : Status}
    (h : d ≠ .accepted) : d = .pending := by
  cases d
  · rfl
  · exact absurd rfl h

/-- Complete case analysis of the atomic accept transaction. -/
theorem tryAccept_spec (s : Store) (i : Nat) (tok : String) (now : Nat) :
    (s.find? (fun d => d.id == i) = none ∧
      tryAccept s i tok now = (.resNotFound, s)) ∨
    ∃ c, s.find? (fun d => d.id == i) = some c ∧
      ((c.status = .accepted ∧
          tryAccept s i tok now = (.resAlreadyAccepted, s)) ∨
       (c.status = .pending ∧ c.acceptToken ≠ some tok ∧
          tryAccept s i tok now = (.resTokenMismatch, s)) ∨
       (c.status = .pending ∧ c.acceptToken = some tok ∧
          now < c.tokenExpiry ∧
          tryAccept s i tok now =
            (.resAccepted, s.map (acceptFlip i tok now))) ∨
       (c.status = .pending ∧ c.acceptToken = some tok ∧
          c.tokenExpiry ≤ now ∧
          tryAccept s i tok now = (.resTokenExpired, s))) := by
  rcases hf : s.find? (fun d => d.id == i) with - | c
  · exact Or.inl ⟨hf, by simp [tryAccept, hf]⟩
  · refine Or.inr ⟨c, hf, ?_⟩
    by_cases h1 : c.status = .accepted
    · exact Or.inl ⟨h1, by simp [tryAccept, hf, h1]⟩
    · have hp := status_eq_pending_of_ne_accepted h1
      by_cases h2 : c.acceptToken = some tok
      · by_cases h3 : now < c.tokenExpiry
        · exact Or.inr (Or.inr (Or.inl
            ⟨hp, h2, h3, by simp [tryAccept, hf, h1, h2, h3]⟩))
        · exact Or.inr (Or.inr (Or.inr
            ⟨hp, h2, by omega, by simp [tryAccept, hf, h1, h2, h3]⟩))
      · exact Or.inr (Or.inl ⟨hp, h2, by simp [tryAccept, hf, h1, h2]⟩)

/-- Membership in the accepted listing implies membership in the store
with `accepted` status and the right target. -/
theorem mem_listAccepted {s : Store} {target : String} {c : Comment} :
    c ∈ listAccepted s target ↔
      c ∈ s ∧ c.status = .accepted ∧ c.target = target := by
  unfold listAccepted
  rw [List.mem_insertionSort, List.mem_filter]
  simp [and_assoc]

/-! ### Claim theorems -/

/-- C1: a comment whose status is `Pending` never appears in the `get`
listing nor in the feed rendering of its target, no matter the store and
no matter how recently it was submitted. -/
theorem pending_invisible_in_get_and_feed (s : Store) (target : String)
    (c : Comment) (hmem : c ∈ s) (hpend : c.status = .pending) :
    c ∉ listAccepted s target ∧ c ∉ feedComments s target := by
  have hget : c ∉ listAccepted s target := by
    intro h
    rcases mem_listAccepted.mp h with ⟨-, hacc, -⟩
    rw [hpend] at hacc
    cases hacc
  refine ⟨hget, ?_⟩
  intro h
  exact hget (List.mem_reverse.mp h)

/-- Witness for C1 at a concrete pending comment in a singleton store. -/
theorem pending_invisible_in_get_and_feed_witness :
    demoPending ∉ listAccepted [demoPending] "/t" ∧
      demoPending ∉ feedComments [demoPending] "/t" :=
  pending_invisible_in_get_and_feed [demoPending] "/t" demoPending
    (List.mem_singleton.mpr rfl) rfl

/-- C3: `Accepted` is terminal — after any engine operation (submit,
accept, retrieve in either variant, sweep) an accepted comment record is
still present, unchanged, in the store. -/
theorem accepted_is_terminal (s : Store) (op : Op) (c : Comment)
    (hmem : c ∈ s) (hacc : c.status = .accepted) : c ∈ applyOp s op := by
  cases op with
  | opSubmit p t n w =>
    simp only [applyOp, putComment, insertPending]
    exact List.mem_append_left _ hmem
  | opAccept i t n =>
    simp only [applyOp]
    rcases tryAccept_store_cases s i t n with h | h
    · rw [h]; exact hmem
    · rw [h]
      refine List.mem_map.mpr ⟨c, hmem, ?_⟩
      exact acceptFlip_of_not_pending i t n c (by rw [hacc]; intro h2; cases h2)
  | opSweep n =>
    simp only [applyOp, sweepExpiredPending]
    refine List.mem_filter.mpr ⟨hmem, ?_⟩
    simp [expiredPending, hacc]
  | opGet _ => exact hmem
  | opFeed _ => exact hmem

/-- Witness for C3: a concrete accepted comment survives a sweep. -/
theorem accepted_is_terminal_witness :
    demoAcceptedA ∈ applyOp [demoAcceptedA] (.opSweep 1000) :=
  accepted_is_terminal [demoAcceptedA] (.opSweep 1000) demoAcceptedA
    (List.mem_singleton.mpr rfl) rfl

/-- C9: the response visible to the submitting client is identical
whatever token the Token Service generated — the token flows only to the
store and the notification, never into the response. -/
theorem submit_response_token_independent (s : Store) (p : SubmitPayload)
    (t1 t2 : String) (now window : Nat) :
    (putComment s p t1 now window).2.1 = (putComment s p t2 now window).2.1 :=
  rfl

/-- C10: on validation failure, production deployments answer with the
fixed generic 400 message, while any other environment rethrows the raw
validation error, exposing its details. -/
theorem failAction_env_shape (errDetails : String) :
    serverFailAction "production" errDetails =
      .genericBadRequest 400 "Invalid request payload input" ∧
    ∀ env : String, env ≠ "production" →
      serverFailAction env errDetails = .rawError errDetails := by
  constructor
  · rfl
  · intro env henv
    simp [serverFailAction, henv]

/-- Witness for C10 in a development environment. -/
theorem failAction_env_shape_witness :
    serverFailAction "development" "boom" = .rawError "boom" :=
  (failAction_env_shape "boom").2 "development" (by decide)

/-- C2: the accept operation returns exactly one of the five results; on
`TokenMismatch` and `TokenExpired` the store is unchanged and the comment
is still `Pending`; a repeat accept on an already-accepted comment leaves
the store unchanged and returns the same success response as a first-time
accept. -/
theorem tryAccept_result_cases_and_no_mutation (s : Store) (i : Nat)
    (tok : String) (now : Nat) :
    ((tryAccept s i tok now).1 = .resAccepted ∨
     (tryAccept s i tok now).1 = .resNotFound ∨
     (tryAccept s i tok now).1 = .resTokenMismatch ∨
     (tryAccept s i tok now).1 = .resTokenExpired ∨
     (tryAccept s i tok now).1 = .resAlreadyAccepted) ∧
    ((tryAccept s i tok now).1 = .resTokenMismatch ∨
       (tryAccept s i tok now).1 = .resTokenExpired →
      (tryAccept s i tok now).2 = s ∧
      ∃ c, s.find? (fun d => d.id == i) = some c ∧ c.status = .pending) ∧
    ((tryAccept s i tok now).1 = .resAlreadyAccepted →
      (tryAccept s i tok now).2 = s ∧
      acceptResponse (tryAccept s i tok now).1 =
        acceptResponse .resAccepted) := by
  refine ⟨?_, ?_, ?_⟩
  · cases h : (tryAccept s i tok now).1 <;> simp
  · intro hr
    rcases tryAccept_spec s i tok now with ⟨hf, he⟩ | ⟨c, hf, hcase⟩
    · rw [he] at hr
      rcases hr with hr | hr <;> cases hr
    · rcases hcase with ⟨hs, he⟩ | ⟨hp, hm, he⟩ | ⟨hp, hm, hlt, he⟩ |
        ⟨hp, hm, hle, he⟩
      · rw [he] at hr
        rcases hr with hr | hr <;> cases hr
      · rw [he]
        exact ⟨rfl, c, hf, hp⟩
      · rw [he] at hr
        rcases hr with hr | hr <;> cases hr
      · rw [he]
        exact ⟨rfl, c, hf, hp⟩
  · intro hr
    rcases tryAccept_spec s i tok now with ⟨hf, he⟩ | ⟨c, hf, hcase⟩
    · rw [he] at hr
      cases hr
    · rcases hcase with ⟨hs, he⟩ | ⟨hp, hm, he⟩ | ⟨hp, hm, hlt, he⟩ |
        ⟨hp, hm, hle, he⟩
      · rw [he]
        exact ⟨rfl, rfl⟩
      · rw [he] at hr
        cases hr
      · rw [he] at hr
        cases hr
      · rw [he] at hr
        cases hr

/-- Witness for C2: a wrong token on a concrete pending comment leaves the
store unchanged and the comment pending. -/
theorem tryAccept_result_cases_and_no_mutation_witness :
    (tryAccept [demoPending] 7 "wrong" 5).2 = [demoPending] ∧
      ∃ c, List.find? (fun d => d.id == 7) [demoPending] = some c ∧
        c.status = .pending :=
  (tryAccept_result_cases_and_no_mutation [demoPending] 7 "wrong" 5).2.1
    (Or.inl rfl)

/-- Deleting the matches of a predicate and keeping the rest partitions
the length of a list. -/
theorem length_filter_partition (p : Comment → Bool) (l : List Comment) :
    (l.filter p).length + (l.filter (fun a => !p a)).length = l.length := by
  induction l with
  | nil => rfl
  | cons a l ih =>
    by_cases h : p a = true <;> simp [List.filter, h, ← ih] <;> omega

/-- C4: the sweep deletes exactly the pending comments whose token expiry
precedes `now` (and nothing else), reports the count of deleted records,
and a second sweep at the same instant deletes zero records. -/
theorem sweep_deletes_exactly_expired_pending (s : Store) (now : Nat) :
    (∀ c, c ∈ (sweepExpiredPending s now).2 ↔
        c ∈ s ∧ ¬(c.status = .pending ∧ c.tokenExpiry < now)) ∧
    (sweepExpiredPending s now).1 =
      (s.filter (expiredPending now)).length ∧
    (sweepExpiredPending s now).1 + (sweepExpiredPending s now).2.length =
      s.length ∧
    (sweepExpiredPending (sweepExpiredPending s now).2 now).1 = 0 := by
  refine ⟨?_, rfl, ?_, ?_⟩
  · intro c
    simp [sweepExpiredPending, List.mem_filter, expiredPending, not_and,
      Decidable.imp_iff_not_or]
  · exact length_filter_partition (expiredPending now) s
  · simp [sweepExpiredPending, List.filter_filter]

/-- Witness for C4: the sweep over a singleton expired-pending store
accounts for one deleted record. -/
theorem sweep_deletes_exactly_expired_pending_witness :
    (sweepExpiredPending [demoPending] 100).1 +
      (sweepExpiredPending [demoPending] 100).2.length = 1 :=
  (sweep_deletes_exactly_expired_pending [demoPending] 100).2.2.1

/-- C5: `get` returns accepted comments oldest first (ordered by
`createdAt`, ties by `id`), `feed` is the same set newest first; in the
concrete scenario (submit A then B, accept both) `get` is `[A, B]` and
`feed` is `[B, A]`. -/
theorem get_oldest_first_feed_newest_first :
    (∀ (s : Store) (target : String),
      List.Sorted commentLe (listAccepted s target)) ∧
    (∀ (s : Store) (target : String),
      feedComments s target = (listAccepted s target).reverse) ∧
    listAccepted demoStore "/blog/post-1" = [demoAcceptedA, demoAcceptedB] ∧
    feedComments demoStore "/blog/post-1" =
      [demoAcceptedB, demoAcceptedA] := by
  refine ⟨?_, fun s t => rfl, ?_, ?_⟩
  · intro s t
    exact List.sorted_insertionSort commentLe _
  · rfl
  · rfl

/-- C8: the retrieval route's params validation accepts the action exactly
when it is `get` or `feed`; any other action is rejected with a 400
validation failure and the retrieval handler is never invoked. -/
theorem get_action_boundary_validation (nodeEnv : String) (s : Store)
    (action target : String) :
    (getParamsValid action target = true →
       action = "get" ∨ action = "feed") ∧
    ((action = "get" ∨ action = "feed") → target ≠ "" →
       getParamsValid action target = true) ∧
    (action ≠ "get" → action ≠ "feed" →
       getCommentsRoute nodeEnv s action target =
         .rejected (serverFailAction nodeEnv "ValidationError") ∧
       (serverFailAction nodeEnv "ValidationError").statusCode = 400) := by
  refine ⟨?_, ?_, ?_⟩
  · intro h
    simp [getParamsValid] at h
    exact h.1
  · intro h1 h2
    rcases h1 with h1 | h1 <;> simp [getParamsValid, h1, h2]
  · intro h1 h2
    have hv : getParamsValid action target = false := by
      simp [getParamsValid, h1, h2]
    refine ⟨by simp [getCommentsRoute, hv], ?_⟩
    unfold serverFailAction
    split <;> rfl

/-- Witness for C8: a request with action `delete` is rejected. -/
theorem get_action_boundary_validation_witness :
    getCommentsRoute "production" [] "delete" "post" =
      .rejected (serverFailAction "production" "ValidationError") :=
  ((get_action_boundary_validation "production" [] "delete" "post").2.2
    (by decide) (by decide)).1

/-- Witness for C5 at the concrete two-comment scenario. -/
theorem get_oldest_first_feed_newest_first_witness :
    listAccepted demoStore "/blog/post-1" = [demoAcceptedA, demoAcceptedB] :=
  get_oldest_first_feed_newest_first.2.2.1

/-- After the sweep, no record with the swept comment's id remains (given
that ids are unique, per §3 the id is a stable unique identifier). -/
theorem sweep_removes_id (s : Store) (now : Nat) (c : Comment) (i : Nat)
    (hid : c.id = i) (hp : c.status = .pending)
    (hexp : c.tokenExpiry < now)
    (huniq : ∀ d ∈ s, d.id = i → d = c) :
    ∀ d ∈ (sweepExpiredPending s now).2, d.id ≠ i := by
  intro d hd hdi
  have hds : d ∈ s := (List.mem_filter.mp hd).1
  have hdc : d = c := huniq d hds hdi
  subst hdc
  have hkeep := (List.mem_filter.mp hd).2
  simp [expiredPending, hp, hexp] at hkeep

/-- C6: interleavings of atomic store transactions are race-safe — a
second accept after a successful accept observes `AlreadyAccepted` (so
two accept attempts yield exactly one `Accepted` transition), and an
accept racing the sweep on a just-expired pending comment resolves, in
either order, to the single terminal outcome removed (never `Accepted`,
never both, never neither). -/
theorem concurrent_accept_sweep_race_safe :
    (∀ (s : Store) (i : Nat) (tok tok2 : String) (now now2 : Nat),
      (tryAccept s i tok now).1 = .resAccepted →
      (tryAccept (tryAccept s i tok now).2 i tok2 now2).1 =
        .resAlreadyAccepted) ∧
    (∀ (s : Store) (i : Nat) (tok : String) (now : Nat) (c : Comment),
      s.find? (fun d => d.id == i) = some c →
      c.status = .pending → c.tokenExpiry < now →
      (∀ d ∈ s, d.id = i → d = c) →
      ((tryAccept s i tok now).1 ≠ .resAccepted ∧
       ∀ d ∈ (sweepExpiredPending (tryAccept s i tok now).2 now).2,
         d.id ≠ i) ∧
      ((tryAccept (sweepExpiredPending s now).2 i tok now).1 ≠
         .resAccepted ∧
       (tryAccept (sweepExpiredPending s now).2 i tok now).2 =
         (sweepExpiredPending s now).2 ∧
       ∀ d ∈ (sweepExpiredPending s now).2, d.id ≠ i)) := by
  constructor
  · intro s i tok tok2 now now2 h
    rcases tryAccept_spec s i tok now with ⟨hf, he⟩ | ⟨c, hf, hcase⟩
    · rw [he] at h
      cases h
    · rcases hcase with ⟨hs, he⟩ | ⟨hp, hm, he⟩ | ⟨hp, hm, hlt, he⟩ |
        ⟨hp, hm, hle, he⟩
      · rw [he] at h
        cases h
      · rw [he] at h
        cases h
      · rw [he]
        have hid : c.id = i := by simpa using List.find?_some hf
        have hfind2 : (List.map (acceptFlip i tok now) s).find?
            (fun d => d.id == i) =
            some { c with status := .accepted, acceptToken := none } := by
          rw [find?_map_acceptFlip, hf]
          show some (acceptFlip i tok now c) = _
          unfold acceptFlip
          rw [if_pos ⟨hid, hp, hm, hlt⟩]
        simp [tryAccept, hfind2]
      · rw [he] at h
        cases h
  · intro s i tok now c hf hp hexp huniq
    have hid : c.id = i := by simpa using List.find?_some hf
    have hsw := sweep_removes_id s now c i hid hp hexp huniq
    have hstore : (tryAccept s i tok now).1 ≠ .resAccepted ∧
        (tryAccept s i tok now).2 = s := by
      rcases tryAccept_spec s i tok now with ⟨hf2, he⟩ | ⟨c', hf2, hcase⟩
      · rw [hf] at hf2
        cases hf2
      · rw [hf] at hf2
        injection hf2 with hc'
        subst hc'
        rcases hcase with ⟨hs, he⟩ | ⟨-, -, he⟩ | ⟨-, -, hlt, he⟩ |
          ⟨-, -, -, he⟩
        · rw [hp] at hs
          cases hs
        · exact ⟨by rw [he]; simp, by rw [he]⟩
        · exact absurd hlt (by omega)
        · exact ⟨by rw [he]; simp, by rw [he]⟩
    have hnone : (sweepExpiredPending s now).2.find?
        (fun d => d.id == i) = none := by
      rw [List.find?_eq_none]
      intro d hd
      simpa using hsw d hd
    refine ⟨⟨hstore.1, ?_⟩, ?_, ?_, hsw⟩
    · rw [hstore.2]
      exact hsw
    · simp [tryAccept, hnone]
    · simp [tryAccept, hnone]

/-- Witness for C6: the accept-then-sweep order on a concrete expired
pending comment ends with the comment removed and no `Accepted` result. -/
theorem concurrent_accept_sweep_race_safe_witness :
    (tryAccept [demoPending] 7 "tok" 100).1 ≠ .resAccepted ∧
      ∀ d ∈ (sweepExpiredPending (tryAccept [demoPending] 7 "tok" 100).2
        100).2, d.id ≠ 7 :=
  (concurrent_accept_sweep_race_safe.2 [demoPending] 7 "tok" 100 demoPending
    rfl rfl (by decide)
    (fun d hd _ => List.mem_singleton.mp hd)).1

/-- A passing `Joi.string().required()` check pins the field to a
non-empty string. -/
theorem requiredNonEmptyString_spec {o : Option JsonValue}
    (h : requiredNonEmptyString o = true) :
    ∃ m, o = some (.jstr m) ∧ m ≠ "" := by
  cases o with
  | none => cases h
  | some v =>
    cases v with
    | jstr m =>
      refine ⟨m, rfl, ?_⟩
      simpa [requiredNonEmptyString] using h
    | jnum n => cases h
    | jbool b => cases h
    | jobj f => cases h
    | jarr e => cases h
    | jnull => cases h

/-- C7: the submission boundary accepts a payload only when `message` and
`target` are non-empty strings, `author` (when present) is a string that
may be empty and `additional` (when present) is an object; an invalid
payload is rejected with a 400 validation failure before the handler
runs, so every comment the handler stores has a non-empty message and a
non-empty target. -/
theorem put_payload_boundary_validation (nodeEnv : String) (s : Store)
    (p : List (String × JsonValue)) (token : String) (now window : Nat) :
    (putCommentPayloadValid p = true →
      (∃ m, lookupField p "message" = some (.jstr m) ∧ m ≠ "") ∧
      (∃ t, lookupField p "target" = some (.jstr t) ∧ t ≠ "") ∧
      optionalStringAllowEmpty (lookupField p "author") = true ∧
      optionalObject (lookupField p "additional") = true) ∧
    (putCommentPayloadValid p = false →
      putCommentsRoute nodeEnv s p token now window =
        .rejected (serverFailAction nodeEnv "ValidationError") ∧
      (serverFailAction nodeEnv "ValidationError").statusCode = 400) ∧
    (∀ s2 resp, putCommentsRoute nodeEnv s p token now window =
        .handled s2 resp →
      ∀ c ∈ s2, c ∈ s ∨ (c.message ≠ "" ∧ c.target ≠ "")) := by
  refine ⟨?_, ?_, ?_⟩
  · intro hv
    simp only [putCommentPayloadValid, Bool.and_eq_true] at hv
    exact ⟨requiredNonEmptyString_spec hv.1.1.1.1,
      requiredNonEmptyString_spec hv.1.1.1.2, hv.1.1.2, hv.1.2⟩
  · intro hv
    refine ⟨by simp [putCommentsRoute, toSubmitPayload, hv], ?_⟩
    unfold serverFailAction
    split <;> rfl
  · intro s2 resp hroute c hc
    have hv : putCommentPayloadValid p = true := by
      by_contra hv
      rw [Bool.not_eq_true] at hv
      simp [putCommentsRoute, toSubmitPayload, hv] at hroute
    have hparts := hv
    simp only [putCommentPayloadValid, Bool.and_eq_true] at hparts
    obtain ⟨m, hm, hmne⟩ := requiredNonEmptyString_spec hparts.1.1.1.1
    obtain ⟨t, ht, htne⟩ := requiredNonEmptyString_spec hparts.1.1.1.2
    have hsp : toSubmitPayload p = some
        { author := match lookupField p "author" with
                    | some (.jstr a) => some a
                    | _ => none,
          message := m, target := t,
          additional := lookupField p "additional" } := by
      simp [toSubmitPayload, hv, hm, ht]
    rw [putCommentsRoute, hsp] at hroute
    simp only [PutOutcome.handled.injEq] at hroute
    rw [← hroute.1] at hc
    simp only [putComment, insertPending] at hc
    rcases List.mem_append.mp hc with hold | hnew
    · exact Or.inl hold
    · right
      rw [List.mem_singleton.mp hnew]
      exact ⟨hmne, htne⟩

/-- Witness for C7: a payload missing `target` is rejected before the
handler runs. -/
theorem put_payload_boundary_validation_witness :
    putCommentsRoute "production" [] [("message", .jstr "hi")] "tok" 1 24 =
      .rejected (serverFailAction "production" "ValidationError") :=
  ((put_payload_boundary_validation "production" []
    [("message", .jstr "hi")] "tok" 1 24).2.1 rfl).1

end CommentEngine
